import Mathlib

/-!
Verification development for `dump3.py` (sbalci/repo2file).

The Python source is shallowly embedded: Python strings are `List Char`
(written via string-literal `.data`), Python sets of patterns are lists
(every use below is order-independent), filesystem reads are passed in as
explicit data (`probe`, `FileAccess`, `ReadOutcome`), and Python `None`
falling out of a function whose tail is missing is `Option.none`.
-/

/-- Python strings are modelled as lists of characters. -/
abbrev Str := List Char

/-- Python `str.lower()`; the repository only ever lowercases ASCII names
and glob patterns, for which per-character folding is exact. -/
def strLower (s : Str) : Str := s.map Char.toLower

/-- Python `s.endswith(t)`. -/
def strEndsWith (s t : Str) : Bool := List.isSuffixOf t s

/-- Python `s.startswith(t)`. -/
def strStartsWith (s t : Str) : Bool := List.isPrefixOf t s

/-- Python `s.replace(old, new)` for one-character arguments, as in the
source's `rel_path.replace('\\', '/')`. -/
def strReplaceChar (s : Str) (old new : Char) : Str :=
  s.map (fun c => if c == old then new else c)

/-- Python `needle in hay` (substring containment). -/
def strContainsSub (hay needle : Str) : Bool :=
  match hay with
  | [] => needle.isEmpty
  | _ :: t => List.isPrefixOf needle hay || strContainsSub t needle

/-! ## `fnmatch.fnmatch`

The classifier matches names with Python's `fnmatch.fnmatch`, whose POSIX
semantics translate a shell glob to an anchored regex: `*` matches any run
of characters (including `/`), `?` exactly one character, `[...]` a
character class (`!` negates, `-` makes a range, a `]` directly after the
opening bracket is literal, an unterminated `[` is a literal bracket). -/

/-- Scan for the closing `]` of a character class, returning the class body
and the rest of the pattern. -/
def findRBracket : Str → Option (Str × Str)
  | [] => none
  | c :: rest =>
    if c == ']' then some ([], rest)
    else
      match findRBracket rest with
      | some (body, r) => some (c :: body, r)
      | none => none

/-- Extract a class body after an optional leading `!` was consumed; a `]`
in the first position belongs to the body. -/
def classBody : Bool → Str → Option (Bool × Str × Str)
  | _, [] => none
  | neg, c :: tail =>
    if c == ']' then
      match findRBracket tail with
      | some (body, rest) => some (neg, ']' :: body, rest)
      | none => none
    else
      match findRBracket (c :: tail) with
      | some (body, rest) => some (neg, body, rest)
      | none => none

/-- Split `ps` (the pattern after `[`) into negation flag, class body and
remaining pattern; `none` when the class is unterminated. -/
def splitClass : Str → Option (Bool × Str × Str)
  | [] => classBody false []
  | c :: tail => if c == '!' then classBody true tail else classBody false (c :: tail)

/-- Membership of a character in a class body, with `x-y` ranges; a `-` in
the last position is literal. -/
def charInClassBody (c : Char) : Str → Bool
  | x :: '-' :: y :: rest => (decide (x ≤ c) && decide (c ≤ y)) || charInClassBody c rest
  | x :: rest => (c == x) || charInClassBody c rest
  | [] => false

/-- Anchored glob matching, by structural recursion on a fuel counter so
that the function evaluates inside the kernel.  Every recursive call
strictly decreases `p.length + s.length` while the fuel decreases by
exactly one, so with the initial fuel of `globMatch` the `0` branch is
unreachable (`globMatchFuel_irrel` below makes this precise). -/
def globMatchFuel : Nat → Str → Str → Bool
  | 0, _, _ => false
  | fuel + 1, p, s =>
    match p with
    | [] => s.isEmpty
    | pc :: ps =>
      if pc == '*' then
        match s with
        | [] => globMatchFuel fuel ps []
        | _ :: s2 => globMatchFuel fuel ps s || globMatchFuel fuel (pc :: ps) s2
      else if pc == '?' then
        match s with
        | [] => false
        | _ :: s2 => globMatchFuel fuel ps s2
      else if pc == '[' then
        match splitClass ps with
        | some (neg, body, rest) =>
          match s with
          | [] => false
          | c :: s2 => (charInClassBody c body != neg) && globMatchFuel fuel rest s2
        | none =>
          match s with
          | [] => false
          | c :: s2 => (c == '[') && globMatchFuel fuel ps s2
      else
        match s with
        | [] => false
        | c :: s2 => (pc == c) && globMatchFuel fuel ps s2

/-- Anchored glob matching: `globMatch pattern text`. -/
def globMatch (p s : Str) : Bool :=
  globMatchFuel (p.length + s.length + 1) p s

/-- Python `fnmatch.fnmatch(name, pattern)` on POSIX (where `normcase` is
the identity; the callers below lowercase both sides themselves). -/
def fnmatch (name pat : Str) : Bool := globMatch pat name

/-! ## The classifier (`should_skip_directory`, `should_exclude_file`) -/

/-- Source: `PROTECTED_EXTENSIONS` (defined identically in both classifier
functions). -/
def PROTECTED_EXTENSIONS : List Str :=
  [".py".data, ".groovy".data, ".r".data, ".rmd".data, ".md".data, ".ipynb".data]

/-- Source: `ALWAYS_SKIP` in `should_skip_directory`. -/
def ALWAYS_SKIP : List Str :=
  [".git".data, ".idea".data, ".venv".data, "venv".data, "node_modules".data,
   "build".data, "dist".data, ".tox".data, "coverage".data, "htmlcov".data]

/-- The probe's protected-children test: `any(f.endswith(ext) for f in
os.listdir(rel_path))`, tried for each protected extension. -/
def hasProtectedChild (children : List Str) : Bool :=
  PROTECTED_EXTENSIONS.any (fun ext => children.any (fun f => strEndsWith f ext))

/-- Python truthiness of a value that is either a `bool` or `None`;
`should_exclude_file` can return `None` (see below), and both call sites
use it as an `if` condition. -/
def truthy : Option Bool → Bool
  | none => false
  | some b => b

/-- Source: `should_skip_directory(dir_name, rel_path, exclusion_patterns)`.

The filesystem reads `os.path.exists(rel_path)` / `os.listdir(rel_path)`
are abstracted into `probe : Str → Option (List Str)`: `some children` when
the path exists, is listable and has the given immediate children; `none`
when it does not exist or listing fails with `OSError` (both cases fall
through to `return True` in the source; an `OSError` is retried and
re-raised identically for every protected extension, so one `Option`
answer per path is faithful).  The source's pattern loop returns on the
first matching pattern; the probe called there does not depend on the
pattern, so the loop's result equals: some effective pattern matches, and
then the probe decides.  Print statements are side effects without
influence on the result and are dropped. -/
def should_skip_directory (dir_name rel_path : Str) (exclusion_patterns : List Str)
    (probe : Str → Option (List Str)) : Bool :=
  if ALWAYS_SKIP.contains dir_name then true
  else
    if strStartsWith (strLower dir_name) ".".data && strLower dir_name != ".".data then
      match probe rel_path with
      | some children => !hasProtectedChild children
      | none => true
    else if exclusion_patterns.any (fun p =>
        strLower p != ".*".data &&
        (fnmatch (strLower dir_name)
            (if strEndsWith (strLower p) "/**".data
             then (strLower p).take ((strLower p).length - 3) else strLower p) ||
         fnmatch (strLower (strReplaceChar rel_path '\\' '/'))
            (if strEndsWith (strLower p) "/**".data
             then (strLower p).take ((strLower p).length - 3) else strLower p))) then
      match probe rel_path with
      | some children => !hasProtectedChild children
      | none => true
    else false

/-- Source: `should_exclude_file(file_name, file_rel_path, exclusion_patterns)`.

The source function is truncated: after the `license.md` override and the
protected-extension check its body ends with the comment `# Rest of the
function remains the same...`, so for any other file it falls off the end
and returns Python `None` (the computed `normalized_path` is never used).
The `Option Bool` result records exactly that: `some b` for an explicit
`return`, `none` for the fall-through. -/
def should_exclude_file (file_name file_rel_path : Str) (exclusion_patterns : List Str) :
    Option Bool :=
  if strLower file_name == "license.md".data then some true
  else if PROTECTED_EXTENSIONS.any (fun ext => strEndsWith (strLower file_name) ext) then
    some false
  else none

/-! ## The PatternSet builder (`get_excluded_extensions`, `parse_exclusion_files`) -/

/-- Source: `get_excluded_extensions()` (a Python set; represented as a
list, all uses below are membership / iteration whose result is
order-independent). -/
def get_excluded_extensions : List Str :=
  ["png".data, "jpg".data, "jpeg".data, "gif".data, "svg".data, "ico".data,
   "tif".data, "tiff".data, "bmp".data,
   "mp4".data, "mp3".data, "wav".data, "ogg".data, "flac".data, "webm".data,
   "mov".data, "avi".data,
   "rar".data, "7z".data, "tar".data, "gz".data, "bz2".data, "zip".data, "xz".data,
   "csv".data, "json".data, "yaml".data, "yml".data,
   "js".data, "jsx".data, "ts".data, "tsx".data, "mjs".data, "cjs".data,
   "mts".data, "cts".data,
   "pyc".data, "pyo".data, "pyd".data,
   "jar".data, "pem".data, "log".data]

/-- Source: `common_paths` inside `parse_exclusion_files`. -/
def common_paths : List Str :=
  [".git".data, ".idea".data, ".venv".data, "venv".data, "node_modules".data,
   "build".data, "dist".data, ".tox".data, "coverage".data, "htmlcov".data,
   ".mypy_cache".data, ".ruff_cache".data]

/-- The patterns `parse_exclusion_files` always installs before reading any
user file: `*.ext` and `**/*.ext` for each default-excluded extension, and
the three variants for each common path. -/
def builtin_patterns : List Str :=
  get_excluded_extensions.flatMap (fun ext => ["*.".data ++ ext, "**/*.".data ++ ext])
  ++ common_paths.flatMap (fun p => [p, p ++ "/**".data, "**/".data ++ p ++ "/**".data])

/-- Python `str.isspace()` members relevant to `str.strip()` (ASCII). -/
def isPySpace (c : Char) : Bool :=
  c == ' ' || c == '\t' || c == '\n' || c == '\x0d' || c == '\x0b' || c == '\x0c'

/-- Python `s.strip(chars)` generalised over a character predicate. -/
def strStrip (p : Char → Bool) (s : Str) : Str :=
  ((s.dropWhile p).reverse.dropWhile p).reverse

/-- The per-line body of `parse_exclusion_files`'s reading loop: comment
truncation at `#`, whitespace strip, `\`-to-`/` normalisation, `/` strip,
and the four-way pattern classification.  Returns the patterns the line
adds to the set. -/
def patternsOfLine (line : Str) : List Str :=
  let line1 := strStrip isPySpace (line.takeWhile (fun c => c != '#'))
  if line1.isEmpty then []
  else
    let pat := strStrip (fun c => c == '/') (strReplaceChar line1 '\\' '/')
    if pat.isEmpty then []
    else if strStartsWith pat "**/".data then [pat]
    else if strStartsWith pat "*.".data then [pat, "**/".data ++ pat]
    else if pat.any (fun c => c == '*' || c == '?' || c == '[') then [pat]
    else [pat, pat ++ "/**".data, "**/".data ++ pat ++ "/**".data]

/-- One user pattern file as the run sees it: an empty path or a path that
fails `os.path.exists` is `missing`; a path that exists but whose `open`
raises (e.g. a permission error) is `unreadable`; otherwise the file's
lines. -/
inductive FileAccess where
  | missing : FileAccess
  | unreadable : FileAccess
  | readable : List Str → FileAccess
deriving DecidableEq

/-- The file loop of `parse_exclusion_files`.  An empty path and a missing
path are skipped by `if not file_path or not os.path.exists(file_path):
continue`; an existing but unreadable file hits the unguarded `open`,
whose exception propagates out of the function (modelled as `Except.error`). -/
def parse_exclusion_loop : List (Str × FileAccess) → List Str → Except Str (List Str)
  | [], patterns => .ok patterns
  | (file_path, access) :: rest, patterns =>
    if file_path.isEmpty then parse_exclusion_loop rest patterns
    else
      match access with
      | .missing => parse_exclusion_loop rest patterns
      | .unreadable => .error ("PermissionError: ".data ++ file_path)
      | .readable lines =>
        parse_exclusion_loop rest (patterns ++ lines.flatMap patternsOfLine)

/-- Source: `parse_exclusion_files(file_paths)`.  The Python set of
patterns is represented as a list; duplicates are harmless since every
consumer only asks about membership via `any`. -/
def parse_exclusion_files (file_paths : List (Str × FileAccess)) : Except Str (List Str) :=
  parse_exclusion_loop file_paths builtin_patterns

/-! ## The chunked writer (`ChunkedFileWriter`) -/

/-- Byte length of the UTF-8 encoding, Python `len(text.encode('utf-8'))`. -/
def utf8Len (s : Str) : Nat := (s.map Char.utf8Size).sum

/-- The writer's state: byte sizes of the files already closed by
`_open_new_file`, and the byte count written to the currently open file.
After `__init__` the state is `⟨[], 0⟩` (one empty file open). -/
structure WriterState where
  closed_sizes : List Nat
  current_size : Nat
deriving DecidableEq

/-- Source: `ChunkedFileWriter.write(text)`: if the pending write would
push the current file beyond `chunk_size_bytes`, `_open_new_file` closes
the current file and starts a fresh one, then the text is written and
counted. -/
def ChunkedFileWriter_write (chunk_size_bytes : Nat) (st : WriterState) (text : Str) :
    WriterState :=
  if chunk_size_bytes < st.current_size + utf8Len text then
    { closed_sizes := st.closed_sizes ++ [st.current_size], current_size := utf8Len text }
  else
    { st with current_size := st.current_size + utf8Len text }

/-- Run a whole sequence of `write` calls from a fresh writer and `close`
it; the result is the byte size of every output file produced, in order. -/
def chunkedRun (chunk_size_bytes : Nat) (writes : List Str) : List Nat :=
  let final := writes.foldl (ChunkedFileWriter_write chunk_size_bytes) ⟨[], 0⟩
  final.closed_sizes ++ [final.current_size]

/-! ## The content emitter (`process_file`)

`dump3.py` defines `process_file` twice; the later definition (section 4
of the file) shadows the earlier one and is the one `scan_folder` calls,
so it is the one embedded here.  The `open`+`json.load` of the notebook
branch is a `Except Str Notebook` input (`Except.error` = the raised
exception's message), `json.dumps` is an explicit serialiser argument (an
external library function none of the claims inspect), and the `readline`
loop's input is the list of successfully read lines together with an
optional exception that ended the loop. -/

/-- One notebook cell, keeping exactly the parts `process_file` touches:
whether the `outputs` / `execution_count` keys are present, their values,
and the rest of the cell opaque. -/
structure NbCell where
  has_outputs : Bool
  outputs : List Str
  has_execution_count : Bool
  execution_count : Option Int
  rest : Str
deriving DecidableEq

/-- A parsed notebook document: its `cells` list (`nb_data.get("cells",
[])`, so a missing key is the empty list) and the other top-level content,
opaque. -/
structure Notebook where
  cells : List NbCell
  rest : Str
deriving DecidableEq

/-- The cell transform of the reachable `process_file`: clear `outputs`
and null `execution_count` where the keys are present. -/
def stripCell (c : NbCell) : NbCell :=
  { c with outputs := if c.has_outputs then [] else c.outputs,
           execution_count := if c.has_execution_count then none else c.execution_count }

/-- Python `skip_substrings and any(sub in chunk for sub in skip_substrings)`
(for a list, emptiness and `any` over the empty list agree). -/
def lineSkipped (skip_substrings : List Str) (line : Str) : Bool :=
  skip_substrings.any (fun sub => strContainsSub line sub)

/-- Python `splitlines(True)` restricted to `\n` terminators (the only
terminator the serialised notebook text contains). -/
def splitLinesKeepAux : Str → Str → List Str
  | [], acc => if acc.isEmpty then [] else [acc.reverse]
  | c :: rest, acc =>
    if c == '\n' then (c :: acc).reverse :: splitLinesKeepAux rest []
    else splitLinesKeepAux rest (c :: acc)

/-- Split a string into lines, keeping the terminators. -/
def splitLinesKeep (s : Str) : List Str := splitLinesKeepAux s []

/-- What the `readline` loop sees: the chunks read successfully (newline
terminators preserved) and, if the read failed midway, the exception
message that aborted it. -/
structure ReadOutcome where
  lines : List Str
  failure : Option Str
deriving DecidableEq

/-- Source: `process_file(file_path, file_rel_path, safe_write,
skip_substrings, strip_ipynb_outputs)` (the reachable second definition).
The result is the list of strings passed to `safe_write`, in order.  `ext`
is `os.path.splitext(file_path)[1]`. -/
def process_file (ext : Str) (file_rel_path : Str) (skip_substrings : List Str)
    (strip_ipynb_outputs : Bool) (dumps : Notebook → Str)
    (nb_load : Except Str Notebook) (read : ReadOutcome) : List Str :=
  let header := "Content of ".data ++ file_rel_path ++ ":\n".data
  if strLower ext == ".ipynb".data && strip_ipynb_outputs then
    match nb_load with
    | .ok nb =>
      header ::
        ((splitLinesKeep (dumps { nb with cells := nb.cells.map stripCell })).filter
          (fun line => !lineSkipped skip_substrings line))
    | .error e => [header, "Error processing .ipynb file: ".data ++ e ++ "\n".data]
  else
    header ::
      ((read.lines.filter (fun chunk => !lineSkipped skip_substrings chunk)) ++
        (match read.failure with
         | some e => ["Error reading file: ".data ++ e ++ ". Content skipped.\n".data]
         | none => []))

/-! ## The CLI argument parser (`main`) -/

/-- The configuration `main` accumulates from `sys.argv[3:]`. -/
structure CliConfig where
  exclusion_files : List Str
  file_types : Option (List Str)
  max_chunk_size_mb : Option Int
  skip_substrings : List Str
  strip_ipynb_outputs : Bool
deriving DecidableEq

/-- The values the option variables hold before the parsing loop. -/
def initialConfig : CliConfig :=
  { exclusion_files := [], file_types := none, max_chunk_size_mb := none,
    skip_substrings := [], strip_ipynb_outputs := true }

/-- Python `int(s)` as used for `--max-chunk-size`: optional surrounding
whitespace, an optional sign, then decimal digits. -/
def parseNatDigits : Str → Nat → Option Nat
  | [], acc => some acc
  | c :: rest, acc =>
    if '0' ≤ c && c ≤ '9' then parseNatDigits rest (acc * 10 + (c.toNat - '0'.toNat))
    else none

/-- Parse a nonempty digit string. -/
def parseNat (s : Str) : Option Nat :=
  if s.isEmpty then none else parseNatDigits s 0

/-- Python `int(str)` (underscore separators are not modelled; no claim
depends on them). -/
def pyInt (s : Str) : Option Int :=
  match strStrip isPySpace s with
  | '-' :: ds => (parseNat ds).map (fun n => -(n : Int))
  | '+' :: ds => (parseNat ds).map (fun n => (n : Int))
  | ds => (parseNat ds).map (fun n => (n : Int))

/-- Source: the `while i < len(remaining_args)` loop of `main`, over
`sys.argv[3:]`.  A token starting with `.` makes `file_types` the whole
remaining slice (`remaining_args[i:]`) and breaks out of the loop; the
`sys.exit(1)` paths are `Except.error`. -/
def parseArgsLoop : List Str → CliConfig → Except Str CliConfig
  | [], cfg => .ok cfg
  | arg :: rest, cfg =>
    if strStartsWith arg ".".data then
      .ok { cfg with file_types := some (arg :: rest) }
    else if arg == "--max-chunk-size".data then
      match rest with
      | v :: rest2 =>
        match pyInt v with
        | some n => parseArgsLoop rest2 { cfg with max_chunk_size_mb := some n }
        | none => .error "Error: --max-chunk-size requires an integer value (MB).".data
      | [] => .error "Error: --max-chunk-size requires an integer value (MB).".data
    else if arg == "--skip-substring".data then
      match rest with
      | v :: rest2 =>
        parseArgsLoop rest2 { cfg with skip_substrings := cfg.skip_substrings ++ [v] }
      | [] => .error "Error: --skip-substring requires a substring argument.".data
    else if arg == "--no-ipynb-strip".data then
      parseArgsLoop rest { cfg with strip_ipynb_outputs := false }
    else
      parseArgsLoop rest { cfg with exclusion_files := cfg.exclusion_files ++ [arg] }

/-! ## The directory tree, the tree renderer and the traversal driver

`print_directory_structure` and `scan_folder` both walk the filesystem
under the scan root.  The filesystem is modelled as a finite tree of
named entries (symbolic links and concurrent mutation are out of scope, as
in the spec).  `Entry` and `EntryList` are mutually inductive so that all
functions below are structurally recursive and evaluate in the kernel.

Both passes are abstracted to the list of files they visit, each file
given by its component path from the root: for the renderer these are the
files printed as leaves (an entry is printed, and a directory descended
into, exactly when its classifier calls allow it — the connector glyphs,
the indent prefix and `sorted(entries, key=...)` affect only the printed
text and the sibling order, not which files appear); for the driver these
are the files passed to `process_file`.  The classifier arguments are
reproduced exactly: the renderer builds relative paths with
`os.path.relpath` (giving `a/b` forms), while the driver joins with the
top-level `os.path.relpath(root, start_path) = "."`, giving `./a` forms
for top-level entries. -/

mutual
/-- A filesystem entry: a file or a directory with its entries. -/
inductive Entry where
  | file : Str → Entry
  | dir : Str → EntryList → Entry
/-- The entries of a directory, in `os.listdir` order. -/
inductive EntryList where
  | nil : EntryList
  | cons : Entry → EntryList → EntryList
end

/-- Name of an entry. -/
def Entry.name : Entry → Str
  | .file n => n
  | .dir n _ => n

/-- View an `EntryList` as a `List Entry`. -/
def EntryList.toList : EntryList → List Entry
  | .nil => []
  | .cons e rest => e :: rest.toList

/-- Build an `EntryList` from a `List Entry`. -/
def elist : List Entry → EntryList
  | [] => .nil
  | e :: rest => .cons e (elist rest)

/-- The immediate child names of a directory, `os.listdir`. -/
def childNames (es : EntryList) : List Str := es.toList.map Entry.name

/-- Split a path string at `/`. -/
def splitSlashAux : Str → Str → List Str
  | [], acc => [acc.reverse]
  | c :: rest, acc =>
    if c == '/' then acc.reverse :: splitSlashAux rest []
    else splitSlashAux rest (c :: acc)

/-- Split a path string at `/` (so `"./a/b"` gives `[".", "a", "b"]`). -/
def splitSlash (s : Str) : List Str := splitSlashAux s []

/-- Resolve a component path (with `.` components removed) in the tree. -/
def resolveEntry : EntryList → List Str → Option Entry
  | _, [] => none
  | es, [seg] => es.toList.find? (fun e => e.name == seg)
  | es, seg :: rest =>
    match es.toList.find? (fun e => e.name == seg) with
    | some (Entry.dir _ ch) => resolveEntry ch rest
    | _ => none

/-- The filesystem probe the classifier performs (`os.path.exists` plus
`os.listdir`) for a run whose working directory is the scan root: resolve
the relative path in the scanned tree (`.` components are the current
directory) and list the children when it names a directory; a missing
path, or a file (where `os.listdir` raises `OSError`), is a failed probe. -/
def pathProbe (root : EntryList) (rel_path : Str) : Option (List Str) :=
  match resolveEntry root ((splitSlash rel_path).filter (fun seg => seg != ".".data)) with
  | some (Entry.dir _ ch) => some (childNames ch)
  | _ => none

/-- Join path components with `/`; what `os.path.relpath` returns for a
descendant of the scan root. -/
def relString : List Str → Str
  | [] => []
  | [x] => x
  | x :: y :: xs => x ++ '/' :: relString (y :: xs)

/-- `os.path.join(rel_path, d)` as the driver computes it for a
subdirectory: the top-level `rel_path` is `"."`. -/
def walkJoinDir (comps : List Str) (d : Str) : Str :=
  match comps with
  | [] => '.' :: '/' :: d
  | _ => relString comps ++ '/' :: d

/-- `os.path.join(rel_path, file).replace('\\', '/')` for a file the
driver reaches. -/
def walkJoinFile (comps : List Str) (f : Str) : Str :=
  strReplaceChar (walkJoinDir comps f) '\\' '/'

/-- The driver's optional extension allowlist test: `if file_types and not
any(file.lower().endswith(ext.lower()) for ext in file_types): continue`. -/
def keepByTypes (file_types : Option (List Str)) (n : Str) : Bool :=
  match file_types with
  | none => true
  | some fts => fts.isEmpty || fts.any (fun ext => strEndsWith (strLower n) (strLower ext))

mutual
/-- Files `_generate_tree` prints for one entry (component paths), given
the components of the directory holding it: the entry is dropped when
`should_exclude_file` is truthy; a surviving file is a leaf; a surviving
directory is printed and descended when `should_skip_directory` keeps it. -/
def treeVisitE (pats : List Str) (probe : Str → Option (List Str)) (comps : List Str) :
    Entry → List (List Str)
  | Entry.file n =>
    if truthy (should_exclude_file n (relString (comps ++ [n])) pats) then []
    else [comps ++ [n]]
  | Entry.dir n ch =>
    if truthy (should_exclude_file n (relString (comps ++ [n])) pats) then []
    else if should_skip_directory n (relString (comps ++ [n])) pats probe then []
    else treeVisitL pats probe (comps ++ [n]) ch
/-- Files `_generate_tree` prints for a directory's entries. -/
def treeVisitL (pats : List Str) (probe : Str → Option (List Str)) (comps : List Str) :
    EntryList → List (List Str)
  | EntryList.nil => []
  | EntryList.cons e rest =>
    treeVisitE pats probe comps e ++ treeVisitL pats probe comps rest
end

/-- Source: `print_directory_structure(start_path, exclusion_patterns)`,
abstracted to the set of files shown as leaves. -/
def print_directory_structure_files (pats : List Str) (probe : Str → Option (List Str))
    (root : EntryList) : List (List Str) :=
  treeVisitL pats probe [] root

/-- The files of one directory (the `files` part of an `os.walk` triple)
that `scan_folder` passes to `process_file`: kept when
`should_exclude_file` is not truthy and the extension allowlist (if any)
matches. -/
def walkFilesL (pats : List Str) (file_types : Option (List Str)) (comps : List Str) :
    EntryList → List (List Str)
  | EntryList.nil => []
  | EntryList.cons (Entry.file n) rest =>
    (if truthy (should_exclude_file n (walkJoinFile comps n) pats) then []
     else if keepByTypes file_types n then [comps ++ [n]] else [])
    ++ walkFilesL pats file_types comps rest
  | EntryList.cons (Entry.dir _ _) rest => walkFilesL pats file_types comps rest

mutual
/-- Files the driver emits from below one entry of the directory at
`comps`: a subdirectory surviving the `dirs[:]` filter contributes its own
files and, recursively, its subdirectories' files. -/
def walkDirsE (pats : List Str) (probe : Str → Option (List Str))
    (file_types : Option (List Str)) (comps : List Str) : Entry → List (List Str)
  | Entry.file _ => []
  | Entry.dir n ch =>
    if should_skip_directory n (walkJoinDir comps n) pats probe then []
    else
      walkFilesL pats file_types (comps ++ [n]) ch
      ++ walkDirsL pats probe file_types (comps ++ [n]) ch
/-- Files the driver emits from below the subdirectories of the directory
at `comps`. -/
def walkDirsL (pats : List Str) (probe : Str → Option (List Str))
    (file_types : Option (List Str)) (comps : List Str) : EntryList → List (List Str)
  | EntryList.nil => []
  | EntryList.cons e rest =>
    walkDirsE pats probe file_types comps e ++ walkDirsL pats probe file_types comps rest
end

/-- Source: the `os.walk` loop of `scan_folder(...)`, abstracted to the
list of files handed to `process_file` (component paths). -/
def scan_folder_files (pats : List Str) (probe : Str → Option (List Str))
    (file_types : Option (List Str)) (root : EntryList) : List (List Str) :=
  walkFilesL pats file_types [] root ++ walkDirsL pats probe file_types [] root

mutual
/-- No directory at or below this entry is named `license.md`
(case-insensitively). -/
def noLicenseE : Entry → Bool
  | Entry.file _ => true
  | Entry.dir n ch => strLower n != "license.md".data && noLicenseL ch
/-- No directory at or below these entries is named `license.md`
(case-insensitively). -/
def noLicenseL : EntryList → Bool
  | EntryList.nil => true
  | EntryList.cons e rest => noLicenseE e && noLicenseL rest
end

/-- Every top-level directory classifies the same under the relative path
the renderer hands the classifier (`d`) and the one the driver hands it
(`./d`). -/
def topAgree (pats : List Str) (probe : Str → Option (List Str)) (root : EntryList) : Bool :=
  root.toList.all (fun e =>
    match e with
    | Entry.file _ => true
    | Entry.dir n _ =>
      should_skip_directory n ('.' :: '/' :: n) pats probe
        == should_skip_directory n n pats probe)

/-- One entry's contribution to `walkFilesL` (used to state the per-entry
round-trip lemmas). -/
def walkFileOne (pats : List Str) (file_types : Option (List Str)) (comps : List Str) :
    Entry → List (List Str)
  | Entry.file n =>
    if truthy (should_exclude_file n (walkJoinFile comps n) pats) then []
    else if keepByTypes file_types n then [comps ++ [n]] else []
  | Entry.dir _ _ => []

/-- Whether a pattern file opened successfully. -/
def FileAccess.isReadable : FileAccess → Bool
  | .readable _ => true
  | _ => false

/-- A filesystem with a directory named after the reserved license file,
holding a protected-extension child. -/
def fsLicenseDir : EntryList :=
  elist [Entry.dir "license.md".data (elist [Entry.file "a.py".data])]

/-- An ordinary two-entry filesystem. -/
def fsRoundtrip : EntryList :=
  elist [Entry.dir "sub".data (elist [Entry.file "a.py".data]), Entry.file "b.py".data]

/-! ## Theorems -/

/-- A successful bracket scan consumed the whole prefix: body, the closing
bracket, and the rest make up the input. -/
theorem findRBracket_length :
    ∀ (ps body rest : Str), findRBracket ps = some (body, rest) →
      ps.length = body.length + rest.length + 1 := by
  intro ps
  induction ps with
  | nil => intro body rest h; simp [findRBracket] at h
  | cons c tail ih =>
    intro body rest h
    unfold findRBracket at h
    by_cases hc : c == ']'
    · simp [hc] at h
      simp [← h.1, ← h.2]
    · simp [hc] at h
      cases htail : findRBracket tail with
      | none => simp [htail] at h
      | some p =>
        obtain ⟨b2, r2⟩ := p
        simp [htail] at h
        have hlen := ih b2 r2 htail
        simp [← h.1, ← h.2, hlen]
        omega

/-- A successfully parsed class leaves a strictly shorter rest. -/
theorem classBody_length :
    ∀ (neg : Bool) (ps : Str) (neg2 : Bool) (body rest : Str),
      classBody neg ps = some (neg2, body, rest) → rest.length < ps.length := by
  intro neg ps neg2 body rest h
  cases ps with
  | nil => simp [classBody] at h
  | cons c tail =>
    simp only [classBody] at h
    by_cases hc : c == ']'
    · rw [if_pos hc] at h
      cases ht : findRBracket tail with
      | none => rw [ht] at h; simp at h
      | some p =>
        obtain ⟨b2, r2⟩ := p
        rw [ht] at h
        simp only [Option.some.injEq, Prod.mk.injEq] at h
        have := findRBracket_length tail b2 r2 ht
        have hr : rest = r2 := h.2.2.symm
        subst hr
        simp
        omega
    · rw [if_neg hc] at h
      cases ht : findRBracket (c :: tail) with
      | none => rw [ht] at h; simp at h
      | some p =>
        obtain ⟨b2, r2⟩ := p
        rw [ht] at h
        simp only [Option.some.injEq, Prod.mk.injEq] at h
        have := findRBracket_length (c :: tail) b2 r2 ht
        have hr : rest = r2 := h.2.2.symm
        subst hr
        simp at this ⊢
        omega

/-- A successfully parsed class (including an optional `!`) leaves a
strictly shorter rest. -/
theorem splitClass_length :
    ∀ (ps : Str) (neg : Bool) (body rest : Str),
      splitClass ps = some (neg, body, rest) → rest.length < ps.length := by
  intro ps neg body rest h
  cases ps with
  | nil => simp [splitClass, classBody] at h
  | cons c tail =>
    simp only [splitClass] at h
    by_cases hc : c == '!'
    · rw [if_pos hc] at h
      have := classBody_length true tail neg body rest h
      simp
      omega
    · rw [if_neg hc] at h
      exact classBody_length false (c :: tail) neg body rest h

/-- The fuel of `globMatchFuel` is irrelevant as soon as it exceeds the
combined length of pattern and text, so `globMatch`'s fixed initial fuel
never reaches the exhaustion branch. -/
theorem globMatchFuel_irrel :
    ∀ (f1 f2 : Nat) (p s : Str), p.length + s.length < f1 → p.length + s.length < f2 →
      globMatchFuel f1 p s = globMatchFuel f2 p s := by
  intro f1
  induction f1 using Nat.strong_induction_on with
  | _ f1 ih =>
    intro f2 p s h1 h2
    cases f1 with
    | zero => omega
    | succ g1 =>
      cases f2 with
      | zero => omega
      | succ g2 =>
        cases p with
        | nil => simp [globMatchFuel]
        | cons pc ps =>
          simp only [List.length_cons] at h1 h2
          by_cases hstar : pc == '*'
          · cases s with
            | nil =>
              simp only [globMatchFuel, if_pos hstar]
              exact ih g1 (by omega) g2 ps [] (by simp; omega) (by simp; omega)
            | cons c s2 =>
              simp only [List.length_cons] at h1 h2
              simp only [globMatchFuel, if_pos hstar]
              rw [ih g1 (by omega) g2 ps (c :: s2) (by simp; omega) (by simp; omega),
                  ih g1 (by omega) g2 (pc :: ps) s2 (by simp; omega) (by simp; omega)]
          · by_cases hq : pc == '?'
            · cases s with
              | nil => simp only [globMatchFuel, if_neg hstar, if_pos hq]
              | cons c s2 =>
                simp only [List.length_cons] at h1 h2
                simp only [globMatchFuel, if_neg hstar, if_pos hq]
                exact ih g1 (by omega) g2 ps s2 (by omega) (by omega)
            · by_cases hbr : pc == '['
              · cases hsc : splitClass ps with
                | some trip =>
                  obtain ⟨neg, body, rest⟩ := trip
                  have hrest := splitClass_length ps neg body rest hsc
                  cases s with
                  | nil => simp only [globMatchFuel, if_neg hstar, if_neg hq, if_pos hbr, hsc]
                  | cons c s2 =>
                    simp only [List.length_cons] at h1 h2
                    simp only [globMatchFuel, if_neg hstar, if_neg hq, if_pos hbr, hsc]
                    rw [ih g1 (by omega) g2 rest s2 (by omega) (by omega)]
                | none =>
                  cases s with
                  | nil => simp only [globMatchFuel, if_neg hstar, if_neg hq, if_pos hbr, hsc]
                  | cons c s2 =>
                    simp only [List.length_cons] at h1 h2
                    simp only [globMatchFuel, if_neg hstar, if_neg hq, if_pos hbr, hsc]
                    rw [ih g1 (by omega) g2 ps s2 (by omega) (by omega)]
              · cases s with
                | nil => simp only [globMatchFuel, if_neg hstar, if_neg hq, if_neg hbr]
                | cons c s2 =>
                  simp only [List.length_cons] at h1 h2
                  simp only [globMatchFuel, if_neg hstar, if_neg hq, if_neg hbr]
                  rw [ih g1 (by omega) g2 ps s2 (by omega) (by omega)]

/-- C1: the spec says a file `x.<ext>` with a default-blocklisted,
unprotected extension classifies SKIP under the default pattern set; the
code's `should_exclude_file` is truncated before the pattern sweep, so for
`img.png` (extension `png`, in the default blocklist, not protected, name
not the reserved license filename) it falls through and returns `None`,
which both call sites treat as KEEP. -/
theorem c1_png_falls_through :
    "png".data ∈ get_excluded_extensions
    ∧ should_exclude_file "img.png".data "img.png".data builtin_patterns = none
    ∧ truthy (should_exclude_file "img.png".data "img.png".data builtin_patterns) = false := by
  refine ⟨by decide, by decide, by decide⟩

/-- C2: `should_exclude_file`'s tie-break: a name whose lower-cased form is
the reserved `license.md` is excluded (SKIP) whatever the relative path
and pattern set; any other name ending case-insensitively in a protected
extension is kept (KEEP) whatever the pattern set. -/
theorem c2_license_overrides_protection (name rel : Str) (pats : List Str) :
    (strLower name = "license.md".data →
      truthy (should_exclude_file name rel pats) = true)
    ∧ (strLower name ≠ "license.md".data →
      PROTECTED_EXTENSIONS.any (fun ext => strEndsWith (strLower name) ext) = true →
      truthy (should_exclude_file name rel pats) = false) := by
  constructor
  · intro h
    simp [should_exclude_file, h, truthy]
  · intro h hp
    have hb : (strLower name == "license.md".data) = false := beq_eq_false_iff_ne.mpr h
    simp [should_exclude_file, hb, hp, truthy]

/-- Witness for `c2_license_overrides_protection`: the reserved name in
odd case is excluded; a protected `.PY` file survives a matching pattern. -/
theorem c2_license_overrides_protection_witness :
    truthy (should_exclude_file "LICENSE.md".data "sub/LICENSE.md".data ["*.py".data]) = true
    ∧ truthy (should_exclude_file "Main.PY".data "sub/Main.PY".data ["*.py".data]) = false :=
  ⟨(c2_license_overrides_protection "LICENSE.md".data "sub/LICENSE.md".data ["*.py".data]).1
      (by decide),
   (c2_license_overrides_protection "Main.PY".data "sub/Main.PY".data ["*.py".data]).2
      (by decide) (by decide)⟩

/-- C4 counterexample: the claim makes the built-in directory blocklist
case-insensitive, but `dir_name in ALWAYS_SKIP` runs on the raw name
before the lowering: `VENV` lowers to the blocklisted `venv`, yet with an
empty pattern set (and a protected child in place) the directory is KEPT. -/
theorem c4_counterexample_blocklist_case_sensitive :
    ALWAYS_SKIP.contains (strLower "VENV".data) = true
    ∧ should_skip_directory "VENV".data "VENV".data []
        (fun _ => some ["a.py".data]) = false := by
  refine ⟨by decide, by decide⟩

/-- C4 amended: for a directory name that is exactly (case-sensitively) in
the built-in blocklist, `should_skip_directory` returns SKIP
unconditionally — whatever the relative path, the pattern set, and the
directory's children (the probe is arbitrary, so protected-extension
children do not rescue it). -/
theorem c4_blocklist_skip_unconditional (name rel : Str) (pats : List Str)
    (probe : Str → Option (List Str)) (h : ALWAYS_SKIP.contains name = true) :
    should_skip_directory name rel pats probe = true := by
  simp at h
  simp [should_skip_directory, h]

/-- Witness for `c4_blocklist_skip_unconditional`: `.git` is always
skipped even when it holds a protected `.py` child. -/
theorem c4_blocklist_skip_unconditional_witness :
    should_skip_directory ".git".data "proj/.git".data ["*.md".data]
      (fun _ => some ["hook.py".data]) = true :=
  c4_blocklist_skip_unconditional ".git".data "proj/.git".data ["*.md".data]
    (fun _ => some ["hook.py".data]) (by decide)

/-- C5: for a hidden directory name (leading `.`, not the bare `.`) that is
not in the built-in blocklist, the classifier KEEPs exactly when the
child-listing probe succeeds and some immediate child name ends with a
protected extension; it SKIPs otherwise, including when the probe fails —
independent of the pattern set. -/
theorem c5_hidden_dir_probe (name rel : Str) (pats : List Str)
    (probe : Str → Option (List Str))
    (hskip : ALWAYS_SKIP.contains name = false)
    (hdot : strStartsWith (strLower name) ".".data = true)
    (hnotcur : strLower name ≠ ".".data) :
    should_skip_directory name rel pats probe = false ↔
      ∃ children, probe rel = some children ∧ hasProtectedChild children = true := by
  have hne : (strLower name != ".".data) = true := bne_iff_ne.mpr hnotcur
  simp at hskip
  cases hp : probe rel with
  | none => simp [should_skip_directory, hskip, hdot, hne, hp]
  | some children => simp [should_skip_directory, hskip, hdot, hne, hp]

/-- Witness for `c5_hidden_dir_probe`: `.config` with a `.py` child is
kept. -/
theorem c5_hidden_dir_probe_witness :
    should_skip_directory ".config".data ".config".data ["*.md".data]
      (fun _ => some ["x.py".data]) = false :=
  (c5_hidden_dir_probe ".config".data ".config".data ["*.md".data]
      (fun _ => some ["x.py".data]) (by decide) (by decide) (by decide)).mpr
    ⟨["x.py".data], rfl, by decide⟩

/-- C10: a user pattern whose lower-cased form is exactly `.*` is inert in
`should_skip_directory` — the sweep `continue`s over it — so the result is
the same whether or not such patterns are in the set, for every directory
name, relative path and filesystem probe. -/
theorem c10_dotstar_pattern_ignored (name rel : Str) (pats : List Str)
    (probe : Str → Option (List Str)) :
    should_skip_directory name rel pats probe
      = should_skip_directory name rel
          (pats.filter (fun p => strLower p != ".*".data)) probe := by
  simp only [should_skip_directory, List.any_filter, Bool.and_self_left]

/-- Invariant of the chunked writer's fold: every closed file size, and the
open file's size, is within budget or equals the byte length of a single
oversized write from the run. -/
theorem chunkedRun_invariant (Y : Nat) (allW : List Str) :
    ∀ (ws : List Str) (st : WriterState),
      (∀ t ∈ ws, t ∈ allW) →
      (∀ s ∈ st.closed_sizes, s ≤ Y ∨ ∃ t ∈ allW, Y < utf8Len t ∧ s = utf8Len t) →
      (st.current_size ≤ Y ∨ ∃ t ∈ allW, Y < utf8Len t ∧ st.current_size = utf8Len t) →
      (∀ s ∈ (ws.foldl (ChunkedFileWriter_write Y) st).closed_sizes,
        s ≤ Y ∨ ∃ t ∈ allW, Y < utf8Len t ∧ s = utf8Len t)
      ∧ ((ws.foldl (ChunkedFileWriter_write Y) st).current_size ≤ Y
        ∨ ∃ t ∈ allW, Y < utf8Len t ∧
            (ws.foldl (ChunkedFileWriter_write Y) st).current_size = utf8Len t) := by
  intro ws
  induction ws with
  | nil => intro st _ hclosed hcur; exact ⟨hclosed, hcur⟩
  | cons t ts ih =>
    intro st hsub hclosed hcur
    simp only [List.foldl_cons]
    apply ih
    · intro u hu; exact hsub u (by simp [hu])
    · intro s hs
      unfold ChunkedFileWriter_write at hs
      by_cases hover : Y < st.current_size + utf8Len t
      · rw [if_pos hover] at hs
        simp only at hs
        rcases List.mem_append.mp hs with h | h
        · exact hclosed s h
        · have hse : s = st.current_size := by simpa using h
          subst hse; exact hcur
      · rw [if_neg hover] at hs
        exact hclosed s hs
    · unfold ChunkedFileWriter_write
      by_cases hover : Y < st.current_size + utf8Len t
      · rw [if_pos hover]
        simp only
        by_cases hbig : Y < utf8Len t
        · exact Or.inr ⟨t, hsub t (by simp), hbig, rfl⟩
        · exact Or.inl (by omega)
      · rw [if_neg hover]
        simp only
        exact Or.inl (by omega)

/-- C6: over any sequence of writes with byte budget `Y`, every output
file's byte size is at most `Y`, except that a file may exceed `Y` only
when a single write's payload alone exceeds `Y`; that file then consists
of exactly that write, so it exceeds the budget by the payload's overflow. -/
theorem c6_chunked_budget (Y : Nat) (writes : List Str) (s : Nat)
    (hs : s ∈ chunkedRun Y writes) :
    s ≤ Y ∨ ∃ t ∈ writes, Y < utf8Len t ∧ s = utf8Len t := by
  unfold chunkedRun at hs
  have h := chunkedRun_invariant Y writes writes ⟨[], 0⟩
    (fun t ht => ht) (by intro s hs2; simp at hs2) (Or.inl (Nat.zero_le Y))
  rcases List.mem_append.mp hs with hmem | hmem
  · exact h.1 s hmem
  · have : s = (writes.foldl (ChunkedFileWriter_write Y) ⟨[], 0⟩).current_size := by
      simpa using hmem
    subst this
    exact h.2

/-- Witness for `c6_chunked_budget`: with budget 5 the writes of byte
lengths 3, 4 and 7 produce files of sizes 3, 4 and 7; the oversized third
file holds exactly the single 7-byte write. -/
theorem c6_chunked_budget_witness :
    7 ∈ chunkedRun 5 ["abc".data, "abcd".data, "abcdefg".data]
    ∧ (7 ≤ 5 ∨ ∃ t ∈ ["abc".data, "abcd".data, "abcdefg".data],
        5 < utf8Len t ∧ 7 = utf8Len t) :=
  ⟨by decide, c6_chunked_budget 5 ["abc".data, "abcd".data, "abcdefg".data] 7 (by decide)⟩

/-- C7: the emitter converts file-level failures into inline diagnostics
instead of raising: in the notebook branch a failed `open`/`json.load`
produces exactly the header plus one diagnostic line; in the plain branch
a read failure produces the header, the lines read so far (minus
skip-substring hits), then one diagnostic line.  Being a total function
into the list of written strings — for every exception the inputs can
carry — is the embedded form of `never raises to its caller`. -/
theorem c7_emitter_diagnostics (ext rel : Str) (subs : List Str) (strip : Bool)
    (dumps : Notebook → Str) (nb_load : Except Str Notebook) (read : ReadOutcome) :
    ((strLower ext == ".ipynb".data && strip) = true →
      ∀ e, nb_load = .error e →
        process_file ext rel subs strip dumps nb_load read
          = ["Content of ".data ++ rel ++ ":\n".data,
             "Error processing .ipynb file: ".data ++ e ++ "\n".data])
    ∧ ((strLower ext == ".ipynb".data && strip) = false →
      ∀ e, read.failure = some e →
        process_file ext rel subs strip dumps nb_load read
          = ("Content of ".data ++ rel ++ ":\n".data)
            :: ((read.lines.filter (fun chunk => !lineSkipped subs chunk))
              ++ ["Error reading file: ".data ++ e ++ ". Content skipped.\n".data])) := by
  constructor
  · intro hb e he
    simp [process_file, hb, he]
  · intro hb e he
    simp [process_file, hb, he]

/-- Witness for `c7_emitter_diagnostics`: a notebook whose JSON load
raises `boom`, and a text file failing with `EIO` after one line. -/
theorem c7_emitter_diagnostics_witness :
    process_file ".ipynb".data "nb.ipynb".data [] true (fun _ => [])
        (.error "boom".data) ⟨[], none⟩
      = ["Content of nb.ipynb:\n".data, "Error processing .ipynb file: boom\n".data]
    ∧ process_file ".txt".data "a.txt".data [] true (fun _ => [])
        (.ok ⟨[], []⟩) ⟨["x\n".data], some "EIO".data⟩
      = ["Content of a.txt:\n".data, "x\n".data,
         "Error reading file: EIO. Content skipped.\n".data] := by
  constructor
  · exact ((c7_emitter_diagnostics ".ipynb".data "nb.ipynb".data [] true (fun _ => [])
      (.error "boom".data) ⟨[], none⟩).1 (by decide) "boom".data rfl).trans (by decide)
  · exact ((c7_emitter_diagnostics ".txt".data "a.txt".data [] true (fun _ => [])
      (.ok ⟨[], []⟩) ⟨["x\n".data], some "EIO".data⟩).2 (by decide) "EIO".data rfl).trans
      (by decide)

/-- C8 counterexample: the claim says missing or unreadable pattern files
are silently skipped; an existing but unreadable file is opened outside
any handler, so `parse_exclusion_files` raises instead of returning a
pattern set. -/
theorem c8_counterexample_unreadable_raises :
    (parse_exclusion_files [("pats.txt".data, FileAccess.unreadable)]).isOk = false := by
  decide

/-- C8 amended: a pattern file whose path is empty or fails the
`os.path.exists` test is silently skipped — the result is the same as if
the file list held only the readable files — and when no listed file is
both nonempty-named and unreadable the builder returns its pattern union
without raising. -/
theorem c8_missing_files_skipped (files : List (Str × FileAccess))
    (h : ∀ pa ∈ files, pa.1.isEmpty = true ∨ pa.2 ≠ FileAccess.unreadable) :
    parse_exclusion_files files
      = parse_exclusion_files
          (files.filter (fun pa => !pa.1.isEmpty && pa.2.isReadable))
    ∧ (parse_exclusion_files files).isOk = true := by
  unfold parse_exclusion_files
  suffices hloop : ∀ (fs : List (Str × FileAccess)) (acc : List Str),
      (∀ pa ∈ fs, pa.1.isEmpty = true ∨ pa.2 ≠ FileAccess.unreadable) →
      parse_exclusion_loop fs acc
        = parse_exclusion_loop (fs.filter (fun pa => !pa.1.isEmpty && pa.2.isReadable)) acc
      ∧ (parse_exclusion_loop fs acc).isOk = true by
    exact hloop files builtin_patterns h
  intro fs
  induction fs with
  | nil => intro acc _; exact ⟨rfl, rfl⟩
  | cons pa rest ih =>
    intro acc hall
    obtain ⟨path, access⟩ := pa
    have hpa := hall (path, access) (by simp)
    have hrest : ∀ pa ∈ rest, pa.1.isEmpty = true ∨ pa.2 ≠ FileAccess.unreadable :=
      fun q hq => hall q (by simp [hq])
    by_cases hemp : path.isEmpty
    · have hmt : path = [] := by simpa using hemp
      subst hmt
      simpa [parse_exclusion_loop, List.filter] using ih acc hrest
    · have hmt : path.isEmpty = false := by simpa using hemp
      cases access with
      | missing =>
        simpa [parse_exclusion_loop, List.filter, hmt, FileAccess.isReadable]
          using ih acc hrest
      | unreadable =>
        rcases hpa with h1 | h1
        · rw [hmt] at h1; cases h1
        · cases h1 rfl
      | readable lines =>
        simpa [parse_exclusion_loop, List.filter, hmt, FileAccess.isReadable]
          using ih (acc ++ lines.flatMap patternsOfLine) hrest

/-- Witness for `c8_missing_files_skipped`: one missing and one readable
file; the builder succeeds. -/
theorem c8_missing_files_skipped_witness :
    (parse_exclusion_files
      [("gone.txt".data, FileAccess.missing),
       ("pats.txt".data, FileAccess.readable ["*.bak".data])]).isOk = true :=
  (c8_missing_files_skipped
    [("gone.txt".data, FileAccess.missing),
     ("pats.txt".data, FileAccess.readable ["*.bak".data])] (by decide)).2

/-- C9 counterexample: the claim says the trailing allowlist runs only
until a recognized flag; in the code the first `.`-token grabs the whole
remaining slice (`remaining_args[i:]`) and breaks, so a flag after it is
swallowed into `file_types` and never processed: after `.py
--no-ipynb-strip` the allowlist holds both tokens and notebook stripping
stays enabled. -/
theorem c9_counterexample_allowlist_swallows_flags :
    parseArgsLoop [".py".data, "--no-ipynb-strip".data] initialConfig
      = .ok { exclusion_files := [],
              file_types := some [".py".data, "--no-ipynb-strip".data],
              max_chunk_size_mb := none,
              skip_substrings := [],
              strip_ipynb_outputs := true } := rfl

/-- C9 amended: when consumption reaches a token starting with `.`, the
allowlist becomes that token together with all remaining tokens — flags
included, left unprocessed — and parsing stops; a token that does not
start with `.` and is none of the three recognized flags is consumed as
an exclusion-pattern file path. -/
theorem c9_allowlist_takes_rest (a : Str) (rest : List Str) (cfg : CliConfig) :
    (strStartsWith a ".".data = true →
      parseArgsLoop (a :: rest) cfg = .ok { cfg with file_types := some (a :: rest) })
    ∧ (strStartsWith a ".".data = false →
      (a == "--max-chunk-size".data) = false →
      (a == "--skip-substring".data) = false →
      (a == "--no-ipynb-strip".data) = false →
      parseArgsLoop (a :: rest) cfg
        = parseArgsLoop rest { cfg with exclusion_files := cfg.exclusion_files ++ [a] }) := by
  constructor
  · intro hdot
    unfold parseArgsLoop
    rw [if_pos hdot]
  · intro hdot h1 h2 h3
    conv_lhs => unfold parseArgsLoop
    rw [if_neg (by simp [hdot]), if_neg (by simp [h1]), if_neg (by simp [h2]),
        if_neg (by simp [h3])]

/-- Witness for `c9_allowlist_takes_rest`: `.md` starts the allowlist; a
plain token is taken as an exclusion file. -/
theorem c9_allowlist_takes_rest_witness :
    parseArgsLoop [".md".data] initialConfig
      = .ok { initialConfig with file_types := some [".md".data] }
    ∧ parseArgsLoop ["pats.txt".data] initialConfig
      = parseArgsLoop []
          { initialConfig with
            exclusion_files := initialConfig.exclusion_files ++ ["pats.txt".data] } :=
  ⟨(c9_allowlist_takes_rest ".md".data [] initialConfig).1 (by decide),
   (c9_allowlist_takes_rest "pats.txt".data [] initialConfig).2
     (by decide) (by decide) (by decide) (by decide)⟩

/-- The truncated `should_exclude_file` never reads the relative path (it
computes `normalized_path` and then ends), so its result is independent of
it. -/
theorem should_exclude_file_rel (n r r2 : Str) (pats : List Str) :
    should_exclude_file n r pats = should_exclude_file n r2 pats := rfl

/-- A file or directory name other than the reserved license filename is
never truthy-excluded by the truncated `should_exclude_file`: it yields
`some false` (protected) or `None`, both falsy. -/
theorem truthy_exclude_of_not_license (n r : Str) (pats : List Str)
    (h : strLower n ≠ "license.md".data) :
    truthy (should_exclude_file n r pats) = false := by
  have hb : (strLower n == "license.md".data) = false := beq_eq_false_iff_ne.mpr h
  unfold should_exclude_file
  rw [if_neg (by simp [hb])]
  split <;> rfl

/-- Appending one component to a nonempty component list appends `/` and
the component to the joined path. -/
theorem relString_append (comps : List Str) (n : Str) (h : comps ≠ []) :
    relString (comps ++ [n]) = relString comps ++ '/' :: n := by
  induction comps with
  | nil => cases h rfl
  | cons x xs ih =>
    cases xs with
    | nil => simp [relString]
    | cons y ys =>
      have ih2 := ih (by simp)
      simp only [List.cons_append, relString] at ih2 ⊢
      simp [ih2, List.append_assoc]

/-- Below the top level, the driver's joined directory path coincides with
the renderer's `os.path.relpath` result. -/
theorem walkJoinDir_eq (comps : List Str) (n : Str) (h : comps ≠ []) :
    walkJoinDir comps n = relString (comps ++ [n]) := by
  cases comps with
  | nil => cases h rfl
  | cons x xs =>
    rw [relString_append (x :: xs) n (by simp)]
    rfl

/-- `walkFilesL` over a cons is the head entry's file contribution
followed by the rest's. -/
theorem walkFilesL_cons (pats : List Str) (ft : Option (List Str)) (comps : List Str)
    (e : Entry) (rest : EntryList) :
    walkFilesL pats ft comps (EntryList.cons e rest)
      = walkFileOne pats ft comps e ++ walkFilesL pats ft comps rest := by
  cases e <;> simp [walkFilesL, walkFileOne]

mutual
/-- Below the top level the renderer and the driver agree on one entry:
the files the tree shows under it are exactly the files the walk emits
under it, provided no directory below is named `license.md`. -/
theorem deep_tree_walk_entry (pats : List Str) (probe : Str → Option (List Str)) :
    ∀ (e : Entry) (comps : List Str), comps ≠ [] → noLicenseE e = true →
      ∀ p : List Str,
        (p ∈ treeVisitE pats probe comps e ↔
          p ∈ walkFileOne pats none comps e ∨ p ∈ walkDirsE pats probe none comps e) := by
  intro e comps hne hlic p
  cases e with
  | file n =>
    cases hc : truthy (should_exclude_file n (relString (comps ++ [n])) pats) <;>
      simp [treeVisitE, walkFileOne, walkDirsE, keepByTypes, hc,
        should_exclude_file_rel n (walkJoinFile comps n) (relString (comps ++ [n])) pats]
  | dir n ch =>
    have hx : strLower n ≠ "license.md".data ∧ noLicenseL ch = true := by
      simpa [noLicenseE, bne_iff_ne] using hlic
    have hsef := truthy_exclude_of_not_license n (relString (comps ++ [n])) pats hx.1
    have hj := walkJoinDir_eq comps n hne
    have hIH := deep_tree_walk_list pats probe ch (comps ++ [n]) (by simp) hx.2 p
    cases hssd : should_skip_directory n (relString (comps ++ [n])) pats probe <;>
      simp [treeVisitE, walkFileOne, walkDirsE, hsef, hj, hssd, hIH, List.mem_append]

/-- Below the top level the renderer and the driver agree on a directory's
entry list. -/
theorem deep_tree_walk_list (pats : List Str) (probe : Str → Option (List Str)) :
    ∀ (es : EntryList) (comps : List Str), comps ≠ [] → noLicenseL es = true →
      ∀ p : List Str,
        (p ∈ treeVisitL pats probe comps es ↔
          p ∈ walkFilesL pats none comps es ∨ p ∈ walkDirsL pats probe none comps es) := by
  intro es comps hne hlic p
  cases es with
  | nil => simp [treeVisitL, walkFilesL, walkDirsL]
  | cons e rest =>
    have hx : noLicenseE e = true ∧ noLicenseL rest = true := by
      simpa [noLicenseL] using hlic
    have hE := deep_tree_walk_entry pats probe e comps hne hx.1 p
    have hL := deep_tree_walk_list pats probe rest comps hne hx.2 p
    simp only [treeVisitL, walkFilesL_cons, walkDirsL, List.mem_append, hE, hL]
    tauto
end

/-- At the scan root the two passes agree entry list by entry list, given
the license-directory restriction and agreement of the top-level path
spellings (`d` for the renderer, `./d` for the driver). -/
theorem top_tree_walk_list (pats : List Str) (probe : Str → Option (List Str)) :
    ∀ (es : EntryList), noLicenseL es = true →
      (∀ n ch, Entry.dir n ch ∈ es.toList →
        should_skip_directory n ('.' :: '/' :: n) pats probe
          = should_skip_directory n n pats probe) →
      ∀ p : List Str,
        (p ∈ treeVisitL pats probe [] es ↔
          p ∈ walkFilesL pats none [] es ∨ p ∈ walkDirsL pats probe none [] es) := by
  intro es hlic hagree p
  cases es with
  | nil => simp [treeVisitL, walkFilesL, walkDirsL]
  | cons e rest =>
    have hx : noLicenseE e = true ∧ noLicenseL rest = true := by
      simpa [noLicenseL] using hlic
    have hrest := top_tree_walk_list pats probe rest hx.2
      (fun n ch hmem => hagree n ch (by simp [EntryList.toList, hmem])) p
    have hE : p ∈ treeVisitE pats probe [] e ↔
        p ∈ walkFileOne pats none [] e ∨ p ∈ walkDirsE pats probe none [] e := by
      cases e with
      | file n =>
        cases hc : truthy (should_exclude_file n (relString ([] ++ [n])) pats) <;>
          simp [treeVisitE, walkFileOne, walkDirsE, keepByTypes, hc,
            should_exclude_file_rel n (walkJoinFile [] n) (relString ([] ++ [n])) pats]
      | dir n ch =>
        have hy : strLower n ≠ "license.md".data ∧ noLicenseL ch = true := by
          simpa [noLicenseE, bne_iff_ne] using hx.1
        have hsef := truthy_exclude_of_not_license n (relString [n]) pats hy.1
        have hj : should_skip_directory n (walkJoinDir [] n) pats probe
            = should_skip_directory n (relString [n]) pats probe := by
          have := hagree n ch (by simp [EntryList.toList])
          simpa [walkJoinDir, relString] using this
        have hIH := deep_tree_walk_list pats probe ch [n] (by simp) hy.2 p
        cases hssd : should_skip_directory n (relString [n]) pats probe <;>
          simp [treeVisitE, walkFileOne, walkDirsE, hsef, hj, hssd, hIH, List.mem_append]
    simp only [treeVisitL, walkFilesL_cons, walkDirsL, List.mem_append, hE, hrest]
    tauto

/-- C3 counterexample: a directory named `license.md` containing `a.py`,
under a pattern set holding `*.md`.  The renderer's `should_exclude_file`
check on directory entries hides the directory (the reserved-name
override fires on it), but the driver filters directories only through
`should_skip_directory`, whose protected-child probe keeps it — so the
walk emits `license.md/a.py` while the tree shows nothing. -/
theorem c3_counterexample_license_dir :
    ["license.md".data, "a.py".data]
        ∈ scan_folder_files ["*.md".data] (pathProbe fsLicenseDir) none fsLicenseDir
    ∧ ["license.md".data, "a.py".data]
        ∉ print_directory_structure_files ["*.md".data] (pathProbe fsLicenseDir)
            fsLicenseDir := by
  refine ⟨by decide, by decide⟩

/-- C3 amended: under the same PatternSet, with no extension allowlist and
the probes resolving in the scanned tree itself (no concurrent mutation),
the tree's leaves and the walk's emitted files are the same set, provided
(a) no directory in the tree is named `license.md` case-insensitively
(the renderer, unlike the driver, runs `should_exclude_file` on directory
entries, and the reserved-name override hides such a directory from the
tree only), and (b) every top-level directory classifies the same under
the relative-path spellings `d` and `./d` (the renderer hands the
classifier `d`, the driver `./d`; a user pattern such as `./d` breaks the
agreement). -/
theorem c3_tree_walk_roundtrip (pats : List Str) (root : EntryList)
    (H1 : noLicenseL root = true)
    (H2 : topAgree pats (pathProbe root) root = true) :
    ∀ p : List Str,
      p ∈ print_directory_structure_files pats (pathProbe root) root ↔
        p ∈ scan_folder_files pats (pathProbe root) none root := by
  intro p
  have hagree : ∀ n ch, Entry.dir n ch ∈ root.toList →
      should_skip_directory n ('.' :: '/' :: n) pats (pathProbe root)
        = should_skip_directory n n pats (pathProbe root) := by
    intro n ch hmem
    have hall := List.all_eq_true.mp H2 (Entry.dir n ch) hmem
    simpa using hall
  have h := top_tree_walk_list pats (pathProbe root) root H1 hagree p
  unfold print_directory_structure_files scan_folder_files
  rw [h]
  simp [List.mem_append]

/-- Witness for `c3_tree_walk_roundtrip`: on a plain tree the walk's
emission of `sub/a.py` puts it among the tree's leaves. -/
theorem c3_tree_walk_roundtrip_witness :
    ["sub".data, "a.py".data]
      ∈ print_directory_structure_files [] (pathProbe fsRoundtrip) fsRoundtrip :=
  (c3_tree_walk_roundtrip [] fsRoundtrip (by decide) (by decide)
    ["sub".data, "a.py".data]).mpr (by decide)
